import Mathlib

/-!
# Verification of the mail-server mutation core

Shallow embedding of the mutation-and-synchronization core of the mail
server: the cross-account email copy pipeline (`email_copy`,
`copy_message`), the temporary-blob upload admission gate
(`blob_upload`) and the WebSocket push-protocol message dispatcher
(`WebSocketMessage.parse`).  External collaborators (storage, directory)
are modelled as oracle environments; every storage interaction is
recorded in an explicit trace so that "performs zero storage
operations"-style properties are expressible.
-/

namespace MailServer

/-- JMAP object collections (subset used by the copy pipeline). -/
inductive Collection where
  | Email
  | Mailbox
  | Thread
  deriving DecidableEq, Repr

/-- Object types carried by push state-change notifications. -/
inductive TypeState where
  | Email
  | Mailbox
  | Thread
  | EmailDelivery
  deriving DecidableEq, Repr

/-- A JMAP `Id`: a document id together with its (thread) prefix part.
`document_id()` projects the `docId` field. -/
structure Id where
  prefixId : Nat
  docId : Nat
  deriving DecidableEq, Repr

/-- Modelled from the spec: the numeric packing of `Id::from_parts`
(prefix and document parts combined into one 64-bit value) lives outside
the sampled sources; only injectivity of the pairing matters here. -/
def Id.toU64 (i : Id) : Nat :=
  i.prefixId * 2 ^ 32 + i.docId

/-- JMAP property names occurring in the copy pipeline. -/
inductive Property where
  | MailboxIds
  | Keywords
  | ReceivedAt
  | ThreadId
  | Cid
  | Size
  | BodyStructure
  | MessageId
  | InReplyTo
  | References
  | EmailIds
  | Subject
  | Other (n : Nat)
  deriving DecidableEq, Repr

/-- JMAP values (subset used by the copy pipeline).  `keywordV` stands
for a `Keyword` payload, `idV` for an `Id`, `date` for a `UTCDate`. -/
inductive Value where
  | null
  | text (s : String)
  | uint (n : Nat)
  | boolV (b : Bool)
  | idV (i : Id)
  | keywordV (k : String)
  | date (d : Nat)
  | list (l : List Value)

/-- Rust `Value::unwrap_id`; the Rust panics on a non-id value, modelled by a
default. -/
def Value.unwrap_id : Value → Id
  | .idV i => i
  | _ => ⟨0, 0⟩

/-- Rust `Value::unwrap_keyword`; panic on mismatch modelled by a default. -/
def Value.unwrap_keyword : Value → String
  | .keywordV k => k
  | _ => ""

/-- Rust `Value::unwrap_bool`; panic on mismatch modelled by a default. -/
def Value.unwrap_bool : Value → Bool
  | .boolV b => b
  | _ => false

/-- Rust `Value::as_string`: `Some` only for text values. -/
def Value.as_string : Value → Option String
  | .text s => some s
  | _ => none

/-- Rust `Value::as_uint`: `Some` only for unsigned-integer values. -/
def Value.as_uint : Value → Option Nat
  | .uint n => some n
  | _ => none

/-- An `Object<Value>`: an ordered association list of properties, as
stored for a message's metadata. -/
abbrev Obj := List (Property × Value)

/-- Rust `Object::get`: first value stored under the property, `Null` when
absent. -/
def Obj.get (o : Obj) (p : Property) : Value :=
  match o.find? (fun e => e.1 = p) with
  | some e => e.2
  | none => .null

/-- Rust `Object::set`: replace the first binding of the property, appending
when absent. -/
def Obj.set (o : Obj) (p : Property) (v : Value) : Obj :=
  match o with
  | [] => [(p, v)]
  | (q, w) :: rest => if q = p then (p, v) :: rest else (q, w) :: Obj.set rest p v

/-- Rust `SetValue` as consumed by the copy pipeline: a plain value or a
patch list. -/
inductive MaybePatchValue where
  | value (v : Value)
  | patch (l : List Value)

/-- Typed per-item error classes of `SetError`. -/
inductive SetErrorType where
  | notFound
  | invalidProperties
  | forbidden
  | overQuota
  deriving DecidableEq, Repr

/-- A JMAP `SetError`: a typed reason, an optional offending property
and an optional human-readable description. -/
structure SetError where
  typ : SetErrorType
  property : Option Property := none
  description : Option String := none
  deriving DecidableEq, Repr

/-- Rust `SetError::not_found()`. -/
def SetError.not_found : SetError := { typ := .notFound }

/-- Rust `SetError::invalid_properties()`. -/
def SetError.invalid_properties : SetError := { typ := .invalidProperties }

/-- Rust `SetError::forbidden()`. -/
def SetError.forbidden : SetError := { typ := .forbidden }

/-- Rust `SetError::over_quota()`. -/
def SetError.over_quota : SetError := { typ := .overQuota }

/-- Rust `SetError::with_property`. -/
def SetError.with_property (e : SetError) (p : Property) : SetError :=
  { e with property := some p }

/-- Rust `SetError::with_description`. -/
def SetError.with_description (e : SetError) (d : String) : SetError :=
  { e with description := some d }

/-- Method-level (whole-call) errors of the copy pipeline. -/
inductive MethodError where
  | invalidArguments (s : String)
  | stateMismatch
  | serverFail
  | internal
  deriving DecidableEq, Repr

/-- A JMAP `State`: initial, or exact at a change id. -/
inductive State where
  | initial
  | exact (changeId : Nat)
  deriving DecidableEq, Repr

/-- A `StateChange` push notification: account plus the object types
changed, each at a change id (`with_change` appends in call order). -/
structure StateChange where
  accountId : Nat
  types : List (TypeState × Nat)
  deriving DecidableEq, Repr

/-- Blob storage kinds used by upload and copy. -/
inductive BlobKind where
  | linkedMaildir (accountId docId : Nat)
  | temporary (accountId : Nat)
  deriving DecidableEq, Repr

section Upload

/-! ## Blob upload admission (`crates/jmap/src/blob/upload.rs`) -/

/-- Request-level errors returned by the upload path and the WebSocket
layer. -/
inductive RequestError where
  | overBlobQuota (maxFiles maxBytes : Nat)
  | internalServerError
  | limitSizeRequest
  | limitConcurrentUpload
  | notRequest (detail : String)
  | parseFailed
  deriving DecidableEq, Repr

/-- Upload-relevant server configuration: `upload_tmp_quota_size`
(byte ceiling), `upload_tmp_quota_amount` (file-count ceiling), both
with `0` meaning unlimited. -/
structure UploadConfig where
  upload_tmp_quota_size : Nat
  upload_tmp_quota_amount : Nat
  deriving DecidableEq, Repr

/-- Oracle for the storage and concurrency collaborators of
`blob_upload`.  `inFlight = none` models `is_upload_allowed` rejecting
the attempt (modelled from the spec: the concurrency gate caps
simultaneous uploads per principal; its error is a request-limit
error, never a quota error).  `tmpBlobUsage` is
`get_tmp_blob_usage`'s `(total_files, total_bytes)` result, `none`
modelling a store failure.  `putBlobOk` is the `put_blob` outcome. -/
structure UploadEnv where
  inFlight : Option Unit
  tmpBlobUsage : Option (Nat × Nat)
  putBlobOk : Bool
  deriving DecidableEq, Repr

/-- Successful upload response. -/
structure UploadResponse where
  accountId : Id
  blobId : BlobKind
  c_type : String
  size : Nat
  deriving DecidableEq, Repr

/-- Rust `JMAP::blob_upload` (non-test build): concurrency gate, fresh quota
snapshot, size/count admission (super-user bypass), then `put_blob`. -/
def blob_upload (cfg : UploadConfig) (env : UploadEnv) (account_id : Id)
    (content_type : String) (data : List Nat) (is_super_user : Bool) :
    Except RequestError UploadResponse :=
  match env.inFlight with
  | none => .error .limitConcurrentUpload
  | some _ =>
    match env.tmpBlobUsage with
    | none => .error .internalServerError
    | some (total_files, total_bytes) =>
      if ((cfg.upload_tmp_quota_size > 0
            ∧ total_bytes + data.length > cfg.upload_tmp_quota_size)
          ∨ (cfg.upload_tmp_quota_amount > 0
            ∧ total_files + 1 > cfg.upload_tmp_quota_amount))
          ∧ ¬ is_super_user then
        .error (.overBlobQuota cfg.upload_tmp_quota_amount cfg.upload_tmp_quota_size)
      else if env.putBlobOk then
        .ok { accountId := account_id
              blobId := .temporary account_id.docId
              c_type := content_type
              size := data.length }
      else
        .error .internalServerError

end Upload

section WebSocket

/-! ## WebSocket message parsing
(`crates/jmap-proto/src/request/websocket.rs`)

The JSON surface is abstracted to the event sequence the keyed
dispatcher actually consumes: one event per top-level dictionary key,
in document order.  The embedded `Request` grammar lives outside the
sampled sources; per the source, all that `parse` observes of
`Request::parse_key` is whether the key was recognised as a request
key, recorded in `requestKey`. -/

/-- The `MessageType` accumulator of `WebSocketMessage::parse`. -/
inductive MessageType where
  | request
  | pushEnable
  | pushDisable
  | noType
  deriving DecidableEq, Repr

/-- One top-level dictionary key of an inbound WebSocket message, with
the value the dispatcher extracts from it.  `typeKey` is `"@type"`
(carrying the declared message type, `noType` for an unrecognised
declaration), `dataTypes`, `pushStateKey` and `idKey` are the reserved
push/control keys, `requestKey found` is any other key forwarded to the
embedded request grammar (`found` being `Request::parse_key`'s result),
and `badEntry` models a token-level error while reading an entry. -/
inductive WsEntry where
  | typeKey (t : MessageType)
  | dataTypes (l : List TypeState)
  | pushStateKey (s : Option String)
  | idKey (s : Option String)
  | requestKey (found : Bool)
  | badEntry
  deriving DecidableEq, Repr

/-- The inbound JSON document: a well-formed top-level dictionary, or
anything that fails `assert(Token::DictStart)`. -/
inductive JsonDoc where
  | dict (entries : List WsEntry)
  | malformed
  deriving DecidableEq, Repr

/-- The raw inbound message: its byte length plus its parsed shape. -/
structure JsonInput where
  len : Nat
  doc : JsonDoc
  deriving DecidableEq, Repr

/-- Modelled from the spec: the embedded standard request, accumulated
by `Request::parse_key` (source outside the sample); retains the
sequence of recognition results. -/
structure Request where
  parsedKeys : List Bool
  deriving DecidableEq, Repr

/-- A parsed `WebSocketRequest`: optional client request id plus the
embedded request. -/
structure WebSocketRequest where
  id : Option String
  request : Request
  deriving DecidableEq, Repr

/-- A parsed `WebSocketPushEnable`: object-type filters and optional
push state. -/
structure WebSocketPushEnable where
  data_types : List TypeState
  push_state : Option String
  deriving DecidableEq, Repr

/-- The three inbound WebSocket message variants. -/
inductive WebSocketMessage where
  | request (r : WebSocketRequest)
  | pushEnable (p : WebSocketPushEnable)
  | pushDisable
  deriving DecidableEq, Repr

/-- Rust `WebSocketRequestError`: a request error plus optional request id
(`From<RequestError>` leaves the id `None`). -/
structure WebSocketRequestError where
  error : RequestError
  requestId : Option String := none
  deriving DecidableEq, Repr

/-- The mutable state threaded through the key-dispatch loop of
`WebSocketMessage::parse`. -/
structure WsAcc where
  messageType : MessageType
  reqId : Option String
  dataTypes : List TypeState
  pushState : Option String
  foundRequestKeys : Bool
  foundPushKeys : Bool
  reqKeys : List Bool
  deriving DecidableEq, Repr

/-- Initial dispatch-loop state. -/
def wsInit : WsAcc :=
  { messageType := .noType, reqId := none, dataTypes := [], pushState := none,
    foundRequestKeys := false, foundPushKeys := false, reqKeys := [] }

/-- One iteration of the key-dispatch loop. -/
def wsStep (acc : WsAcc) : WsEntry → Except RequestError WsAcc
  | .typeKey t => .ok { acc with messageType := t }
  | .dataTypes l => .ok { acc with dataTypes := l, foundPushKeys := true }
  | .pushStateKey s => .ok { acc with pushState := s, foundPushKeys := true }
  | .idKey s => .ok { acc with reqId := s }
  | .requestKey f =>
      .ok { acc with foundRequestKeys := acc.foundRequestKeys || f,
                     reqKeys := acc.reqKeys ++ [f] }
  | .badEntry => .error .parseFailed

/-- The key-dispatch loop over all top-level keys. -/
def wsFold (acc : WsAcc) : List WsEntry → Except RequestError WsAcc
  | [] => .ok acc
  | e :: rest =>
    match wsStep acc e with
    | .error err => .error err
    | .ok acc' => wsFold acc' rest

/-- Dispatch on a well-formed top-level dictionary: run the loop, then
match the declared type against the keys found. -/
def parseDoc (doc : JsonDoc) : Except WebSocketRequestError WebSocketMessage :=
  match doc with
  | .malformed => .error { error := .parseFailed }
  | .dict entries =>
    match wsFold wsInit entries with
    | .error e => .error { error := e }
    | .ok acc =>
      match acc.messageType with
      | .request =>
        if acc.foundRequestKeys then
          .ok (.request { id := acc.reqId, request := { parsedKeys := acc.reqKeys } })
        else .error { error := .notRequest "Invalid WebSocket JMAP request" }
      | .pushEnable =>
        if acc.foundPushKeys then
          .ok (.pushEnable { data_types := acc.dataTypes, push_state := acc.pushState })
        else .error { error := .notRequest "Invalid WebSocket JMAP request" }
      | .pushDisable =>
        if ¬ acc.foundRequestKeys ∧ ¬ acc.foundPushKeys then
          .ok .pushDisable
        else .error { error := .notRequest "Invalid WebSocket JMAP request" }
      | .noType => .error { error := .notRequest "Invalid WebSocket JMAP request" }

/-- Rust `WebSocketMessage::parse`: size gate first (`json.len() <= max_size`
proceeds, anything larger fails with the request-size limit error
before any token is consumed), then keyed dispatch.  `max_calls` is
only threaded into the embedded request grammar, which is abstracted
into `WsEntry.requestKey`. -/
def WebSocketMessage.parse (input : JsonInput) (_max_calls max_size : Nat) :
    Except WebSocketRequestError WebSocketMessage :=
  if input.len ≤ max_size then
    parseDoc input.doc
  else
    .error { error := .limitSizeRequest }

/-- Is the entry one of the two push-specific keys (`dataTypes`,
`pushState`)? -/
def WsEntry.isPushKey : WsEntry → Bool
  | .dataTypes _ => true
  | .pushStateKey _ => true
  | _ => false

/-- The declared message type after the loop: the last `@type` key
wins, `noType` when none occurs. -/
def declaredType (entries : List WsEntry) : MessageType :=
  entries.foldl (fun a e => match e with | .typeKey t => t | _ => a) .noType

/-- Was this entry recognised by `Request::parse_key` as a request
key? -/
def WsEntry.isFoundRequestKey : WsEntry → Bool
  | .requestKey f => f
  | _ => false

end WebSocket

section Copy

/-! ## Cross-account message copy
(`crates/jmap/src/email/copy.rs`)

Storage and directory collaborators are oracles (`CopyEnv`,
`JmapEnv`); every collaborator interaction is appended to a
`StorageOp` trace, recorded whether or not the call succeeds. -/

/-- Change-log entry kinds recorded by a `ChangeCollector`. -/
inductive ChangeEntry where
  | insert (c : Collection) (id : Nat)
  | update (c : Collection) (id : Nat)
  | childUpdate (c : Collection) (id : Nat)
  deriving DecidableEq, Repr

/-- A `ChangeCollector` returned by `begin_changes`: one change id plus
the entries logged under it, in log order. -/
structure ChangeCollector where
  change_id : Nat
  entries : List ChangeEntry
  deriving DecidableEq, Repr

/-- Rust `ChangeLogBuilder::log_insert`. -/
def ChangeCollector.log_insert (ch : ChangeCollector) (c : Collection) (id : Nat) :
    ChangeCollector :=
  { ch with entries := ch.entries ++ [.insert c id] }

/-- Rust `ChangeLogBuilder::log_child_update`. -/
def ChangeCollector.log_child_update (ch : ChangeCollector) (c : Collection) (id : Nat) :
    ChangeCollector :=
  { ch with entries := ch.entries ++ [.childUpdate c id] }

/-- Opaque full-text term index payload fetched for the source
message. -/
structure TokenIndex where
  raw : Nat
  deriving DecidableEq, Repr

/-- Values attached to a batch by `.value(...)`. -/
inductive BatchValue where
  | uint (n : Nat)
  | uintList (l : List Nat)
  | keywordList (l : List String)
  deriving DecidableEq, Repr

/-- Rust `store::write::F_VALUE` index-family flag. -/
def F_VALUE : Nat := 1

/-- Rust `store::write::F_BITMAP` index-family flag. -/
def F_BITMAP : Nat := 2

/-- Operations accumulated by a `BatchBuilder`, in builder-call
order.  `customFts` is the `EmailIndexBuilder::set(metadata)` payload,
`customTokenIndex` the raw term index, `customChanges` the change-log
payload. -/
inductive BatchOp where
  | withAccountId (account : Nat)
  | withCollection (c : Collection)
  | createDocument (id : Nat)
  | value (p : Property) (v : BatchValue) (fields : Nat)
  | customFts (metadata : Obj)
  | customTokenIndex (t : TokenIndex)
  | customChanges (c : ChangeCollector)

/-- Storage/collaborator interactions, recorded in invocation order. -/
inductive StorageOp where
  | assertState (account : Nat) (c : Collection)
  | ownedOrSharedMessages (account : Nat)
  | mailboxGetOrCreate (account : Nat)
  | sharedDocuments (account : Nat) (c : Collection)
  | getQuota (account : Nat)
  | getProperty (account : Nat) (c : Collection) (doc : Nat) (p : Property)
  | getTermIndex (account : Nat) (c : Collection) (doc : Nat)
  | getUsedQuota (account : Nat)
  | assignDocumentId (account : Nat) (c : Collection)
  | copyBlob (src dst : BlobKind)
  | findOrMergeThread (account : Nat) (subject : String) (references : List String)
  | beginChanges (account : Nat)
  | write (batch : List BatchOp)
  | getState (account : Nat) (c : Collection)

/-- The ingestion summary returned for a copied message. -/
structure IngestedEmail where
  id : Id
  change_id : Nat
  blob_id : BlobKind
  size : Nat
  deriving DecidableEq, Repr

/-- Rust `Id::from_parts`: thread prefix plus document id. -/
def Id.fromParts (prefixId docId : Nat) : Id := ⟨prefixId, docId⟩

/-- Oracle for the collaborators consulted by `copy_message` for one
source message: `get_property(BodyStructure)`, `get_term_index`,
`get_used_quota`, `assign_document_id` (per collection), `copy_blob`,
`find_or_merge_thread` (the thread resolver), `begin_changes` (the
allocated change id) and the batch `write` outcome.  `normalizeSubject`
models `thread_name(..).trim_text(MAX_SORT_FIELD_LENGTH)`, whose source
(mail-parser / index.rs) is outside the sample; no claim depends on
its value. -/
structure CopyEnv where
  getProperty : Except MethodError (Option Obj)
  getTermIndex : Except MethodError (Option TokenIndex)
  getUsedQuota : Except MethodError Int
  assignDocumentId : Collection → Except MethodError Nat
  copyBlobOk : Bool
  findOrMergeThread : String → List String → Except Unit (Option Nat)
  beginChanges : Except MethodError Nat
  writeOk : Bool
  normalizeSubject : String → String

/-- The reference tokens a metadata value contributes to thread
resolution: a text value as itself, a list value filtered to its text
members. -/
def refsOfValue : Value → List String
  | .text t => [t]
  | .list l => l.filterMap Value.as_string
  | _ => []

/-- Is this property one of the reference-header arms
(`MessageId | InReplyTo | References | EmailIds`) of the metadata
scan? -/
def Property.isThreadRef : Property → Bool
  | .MessageId => true
  | .InReplyTo => true
  | .References => true
  | .EmailIds => true
  | _ => false

/-- The metadata scan of `copy_message`: walks the property list in
order, accumulating reference tokens and (re)setting the normalized
subject, the last `Subject` text value winning. -/
def scanMetadata (normalize : String → String) :
    Obj → List String → String → List String × String
  | [], references, subject => (references, subject)
  | (property, v) :: rest, references, subject =>
    if property.isThreadRef then
      scanMetadata normalize rest (references ++ refsOfValue v) subject
    else if property = .Subject then
      match v.as_string with
      | some s => scanMetadata normalize rest references (normalize s)
      | none => scanMetadata normalize rest references subject
    else
      scanMetadata normalize rest references subject

/-- The quota guard of `copy_message`: only a strictly positive
`account_quota` is enforced, and only then is `get_used_quota` read;
returns whether the projected usage exceeds the quota. -/
def checkQuota (env : CopyEnv) (account_id : Nat) (account_quota : Int) (size : Nat) :
    Except MethodError Bool × List StorageOp :=
  if 0 < account_quota then
    match env.getUsedQuota with
    | .error e => (.error e, [.getUsedQuota account_id])
    | .ok used => (.ok (decide ((size : Int) + used > account_quota)), [.getUsedQuota account_id])
  else (.ok false, [])

/-- The thread-id resolution step of `copy_message`: the resolver is
consulted only when at least one reference token was collected; a
resolver failure is downgraded to a server failure. -/
def resolveThread (env : CopyEnv) (account_id : Nat) (subject : String)
    (references : List String) : Except MethodError (Option Nat) × List StorageOp :=
  if references.isEmpty then (.ok none, [])
  else
    match env.findOrMergeThread subject references with
    | .error _ => (.error .serverFail, [.findOrMergeThread account_id subject references])
    | .ok r => (.ok r, [.findOrMergeThread account_id subject references])

/-- The thread branch of `copy_message`'s change-log construction: a
matched thread yields a child-update entry and no batch ops; no match
allocates a fresh thread document, creates it in the batch and logs its
insert. -/
def threadStage (env : CopyEnv) (account_id : Nat) :
    Option Nat → Except MethodError (Nat × List BatchOp × ChangeEntry) × List StorageOp
  | some thread_id => (.ok (thread_id, [], .childUpdate .Thread thread_id), [])
  | none =>
    match env.assignDocumentId .Thread with
    | .error e => (.error e, [.assignDocumentId account_id .Thread])
    | .ok thread_id =>
        (.ok (thread_id,
              [.withCollection .Thread, .createDocument thread_id],
              .insert .Thread thread_id),
         [.assignDocumentId account_id .Thread])

/-- The `receivedAt` override: a client-supplied date replaces the
stored `ReceivedAt` property of the source metadata. -/
def applyReceivedAt (metadata : Obj) : Option Nat → Obj
  | some d => metadata.set .ReceivedAt (.date d)
  | none => metadata

/-- Rust `JMAP::copy_message`: fetch metadata and term index, enforce the
target account quota, set `receivedAt`, scan references and subject,
resolve the thread, allocate the new document id, link-copy the blob,
build the change log and the batch, and commit. -/
def copy_message (env : CopyEnv) (from_account_id from_message_id account_id : Nat)
    (account_quota : Int) (mailboxes : List Nat) (keywords : List String)
    (received_at : Option Nat) :
    Except MethodError (Except SetError IngestedEmail) × List StorageOp :=
  let gp := StorageOp.getProperty from_account_id .Email from_message_id .BodyStructure
  let gt := StorageOp.getTermIndex from_account_id .Email from_message_id
  match env.getProperty with
  | .error e => (.error e, [gp])
  | .ok mdOpt =>
    match env.getTermIndex with
    | .error e => (.error e, [gp, gt])
    | .ok tiOpt =>
      match mdOpt, tiOpt with
      | some metadata, some token_index =>
        match checkQuota env account_id account_quota
            ((metadata.get .Size).as_uint.getD 0) with
        | (.error e, trq) => (.error e, [gp, gt] ++ trq)
        | (.ok true, trq) => (.ok (.error SetError.over_quota), [gp, gt] ++ trq)
        | (.ok false, trq) =>
          let metadata := applyReceivedAt metadata received_at
          let scan := scanMetadata env.normalizeSubject metadata [] ""
          match resolveThread env account_id scan.2 scan.1 with
          | (.error e, trt) => (.error e, [gp, gt] ++ trq ++ trt)
          | (.ok thread_opt, trt) =>
            match env.assignDocumentId .Email with
            | .error e =>
                (.error e, [gp, gt] ++ trq ++ trt ++ [.assignDocumentId account_id .Email])
            | .ok message_id =>
              let tr1 := [gp, gt] ++ trq ++ trt ++ [.assignDocumentId account_id .Email]
              let blob_id := BlobKind.linkedMaildir account_id message_id
              let size := (metadata.get .Size).as_uint.getD 0
              let srcBlob := BlobKind.linkedMaildir from_account_id from_message_id
              let tr2 := tr1 ++ [.copyBlob srcBlob blob_id]
              if ¬ env.copyBlobOk then (.error .serverFail, tr2)
              else
                match env.beginChanges with
                | .error e => (.error e, tr2 ++ [.beginChanges account_id])
                | .ok change_id =>
                  let tr3 := tr2 ++ [.beginChanges account_id]
                  match threadStage env account_id thread_opt with
                  | (.error e, trth) => (.error e, tr3 ++ trth)
                  | (.ok (thread_id, threadBatch, threadEntry), trth) =>
                    let email : IngestedEmail :=
                      { id := Id.fromParts thread_id message_id,
                        change_id := change_id, blob_id := blob_id, size := size }
                    let changes : ChangeCollector :=
                      { change_id := change_id,
                        entries := [threadEntry, .insert .Email email.id.toU64]
                          ++ mailboxes.map (fun m => ChangeEntry.childUpdate .Mailbox m) }
                    let batch : List BatchOp :=
                      [.withAccountId account_id] ++ threadBatch ++
                      [.withCollection .Email, .createDocument message_id,
                       .value .ThreadId (.uint thread_id) (F_VALUE ||| F_BITMAP),
                       .value .MailboxIds (.uintList mailboxes) (F_VALUE ||| F_BITMAP),
                       .value .Keywords (.keywordList keywords) (F_VALUE ||| F_BITMAP),
                       .value .Cid (.uint change_id) F_VALUE,
                       .customFts metadata, .customTokenIndex token_index,
                       .customChanges changes]
                    if env.writeOk then
                      (.ok (.ok email), tr3 ++ trth ++ [.write batch])
                    else
                      (.error .serverFail, tr3 ++ trth ++ [.write batch])
      | _, _ =>
        (.ok (.error (SetError.not_found.with_description
            "Message not found not found in account.")), [gp, gt])

/-- One `create` item of an `Email/Copy` request: the client-supplied
property map, in request order. -/
structure CreateItem where
  properties : List (Property × MaybePatchValue)

/-- An `Email/Copy` request.  The keys of `create` are the source
email ids. -/
structure CopyRequest where
  from_account_id : Id
  account_id : Id
  if_in_state : Option State
  create : List (Id × CreateItem)
  on_success_destroy_original : Option Bool
  destroy_from_if_in_state : Option State

/-- The `Email/Set` request enqueued as the follow-up destroy call. -/
structure EnqueuedSet where
  account_id : Id
  if_in_state : Option State
  destroy : List Id
  deriving DecidableEq, Repr

/-- Method objects of an enqueued call name. -/
inductive MethodObject where
  | email
  deriving DecidableEq, Repr

/-- Method functions of an enqueued call name. -/
inductive MethodFunction where
  | set
  deriving DecidableEq, Repr

/-- The follow-up `Call` written into `next_call`. -/
structure EnqueuedCall where
  id : String
  obj : MethodObject
  fn : MethodFunction
  set_request : EnqueuedSet
  deriving DecidableEq, Repr

/-- The `Email/Copy` response: old/new states, per-item outcomes keyed
by the source id in request order, and the optional state-change
notification. -/
structure CopyResponse where
  from_account_id : Id
  account_id : Id
  old_state : State
  new_state : State
  created : List (Id × IngestedEmail)
  not_created : List (Id × SetError)
  state_change : Option StateChange
  deriving DecidableEq, Repr

/-- Oracle for the whole-call collaborators of `email_copy`:
`assert_state` (the precondition read against `if_in_state`),
`owned_or_shared_messages` (ids readable in the source account),
`mailbox_get_or_create` (mailboxes existing in the target account),
`is_shared`/`shared_documents` (writable-mailbox ACL when the target
account is shared), `get_quota`, the per-source-message `CopyEnv`, and
the final `get_state` re-read.  `evalRef` models
`eval_object_references` (source outside the sample): resolution of a
client-supplied value against previously created ids, depending only on
the value itself. -/
structure JmapEnv where
  assertState : Except MethodError State
  fromMessageIds : Except MethodError (List Nat)
  mailboxIds : Except MethodError (List Nat)
  isShared : Bool
  sharedMailboxIds : Except MethodError (List Nat)
  getQuota : Except MethodError Int
  evalRef : MaybePatchValue → Except SetError MaybePatchValue
  copyEnv : Nat → CopyEnv
  getState : Except MethodError State

/-- The shared-account ACL step of `email_copy`: when the target
account is shared with the caller, read the set of mailboxes the caller
may add to; otherwise no ACL restriction applies. -/
def sharedMailboxStep (env : JmapEnv) (account_id : Nat) :
    Except MethodError (Option (List Nat)) × List StorageOp :=
  if env.isShared then
    match env.sharedMailboxIds with
    | .error e => (.error e, [.sharedDocuments account_id .Mailbox])
    | .ok ids => (.ok (some ids), [.sharedDocuments account_id .Mailbox])
  else (.ok none, [])

/-- The immutable per-call context shared by every `create` item. -/
structure CopyCtx where
  account_id : Nat
  from_account_id : Nat
  fromMessageIds : List Nat
  mailboxIds : List Nat
  canAddMailboxIds : Option (List Nat)
  accountQuota : Int

/-- The property loop of one `create` item: evaluate references, then
dispatch on (property, value); a list value replaces the accumulator, a
patch adds or removes one element, `receivedAt` takes a date, and any
other combination fails the item with `InvalidProperties`. -/
def processProperties (evalRef : MaybePatchValue → Except SetError MaybePatchValue) :
    List (Property × MaybePatchValue) → List Nat → List String → Option Nat →
    Except SetError (List Nat × List String × Option Nat)
  | [], mailboxes, keywords, received_at => .ok (mailboxes, keywords, received_at)
  | (property, value0) :: rest, mailboxes, keywords, received_at =>
    match evalRef value0 with
    | .error err => .error err
    | .ok value =>
      match property, value with
      | .MailboxIds, .value (.list ids) =>
          processProperties evalRef rest (ids.map (fun i => i.unwrap_id.docId))
            keywords received_at
      | .MailboxIds, .patch patchItems =>
          let document_id := (patchItems.headD .null).unwrap_id.docId
          let mailboxes' :=
            if ((patchItems.drop 1).headD .null).unwrap_bool then
              if mailboxes.contains document_id then mailboxes
              else mailboxes ++ [document_id]
            else mailboxes.filter (fun i => i ≠ document_id)
          processProperties evalRef rest mailboxes' keywords received_at
      | .Keywords, .value (.list ks) =>
          processProperties evalRef rest mailboxes (ks.map Value.unwrap_keyword) received_at
      | .Keywords, .patch patchItems =>
          let keyword := (patchItems.headD .null).unwrap_keyword
          let keywords' :=
            if ((patchItems.drop 1).headD .null).unwrap_bool then
              if keywords.contains keyword then keywords
              else keywords ++ [keyword]
            else keywords.filter (fun k => k ≠ keyword)
          processProperties evalRef rest mailboxes keywords' received_at
      | .ReceivedAt, .value (.date d) =>
          processProperties evalRef rest mailboxes keywords (some d)
      | p, _ =>
          .error (SetError.invalid_properties.with_property p
            |>.with_description "Invalid property or value.")

/-- The mailbox-id validation loop: each target mailbox must exist, and
when a shared-account ACL set is present the caller must be allowed to
add to it; the first violation fails the item. -/
def validateMailboxes (ctx : CopyCtx) : List Nat → Option SetError
  | [] => none
  | m :: rest =>
    if ¬ ctx.mailboxIds.contains m then
      some (SetError.invalid_properties.with_property .MailboxIds
        |>.with_description s!"mailboxId {m} does not exist.")
    else
      match ctx.canAddMailboxIds with
      | some ids =>
        if ¬ ids.contains m then
          some (SetError.forbidden.with_description
            s!"You are not allowed to add messages to mailbox {m}.")
        else validateMailboxes ctx rest
      | none => validateMailboxes ctx rest

/-- The outcome of one `create` item.  `notCreatedEarly` covers the
`continue`-to-next-item paths (the item never reached `copy_message`);
`notCreatedCopy` is a `SetError` returned by `copy_message` itself.
The distinction matters only for the destroy list. -/
inductive ItemOutcome where
  | created (e : IngestedEmail)
  | notCreatedEarly (err : SetError)
  | notCreatedCopy (err : SetError)

/-- One iteration of the `create` loop: source-readability check,
property processing, non-empty-mailbox check, mailbox validation, then
`copy_message`. -/
def processItem (env : JmapEnv) (ctx : CopyCtx) (id : Id) (create : CreateItem) :
    Except MethodError ItemOutcome × List StorageOp :=
  if ¬ ctx.fromMessageIds.contains id.docId then
    (.ok (.notCreatedEarly (SetError.not_found.with_description
        "Item not found not found in account.")), [])
  else
    match processProperties env.evalRef create.properties [] [] none with
    | .error err => (.ok (.notCreatedEarly err), [])
    | .ok (mailboxes, keywords, received_at) =>
      if mailboxes.isEmpty then
        (.ok (.notCreatedEarly ((SetError.invalid_properties.with_property .MailboxIds
            ).with_description "Message has to belong to at least one mailbox.")), [])
      else
        match validateMailboxes ctx mailboxes with
        | some err => (.ok (.notCreatedEarly err), [])
        | none =>
          match copy_message (env.copyEnv id.docId) ctx.from_account_id id.docId
              ctx.account_id ctx.accountQuota mailboxes keywords received_at with
          | (.error e, tr) => (.error e, tr)
          | (.ok (.error serr), tr) => (.ok (.notCreatedCopy serr), tr)
          | (.ok (.ok email), tr) => (.ok (.created email), tr)

/-- The `create` loop: accumulates `(created, not_created,
destroy_ids)` in request order.  As in the source, the destroy push
happens for every item that reached `copy_message` — both when it
succeeded and when it returned a per-item error — but not on the
`continue`-to-next-item paths. -/
def runItems (env : JmapEnv) (ctx : CopyCtx) (onSuccessDelete : Bool) :
    List (Id × CreateItem) →
    Except MethodError (List (Id × IngestedEmail) × List (Id × SetError) × List Id)
      × List StorageOp
  | [] => (.ok ([], [], []), [])
  | (id, create) :: rest =>
    match processItem env ctx id create with
    | (.error e, tr) => (.error e, tr)
    | (.ok outcome, tr) =>
      match runItems env ctx onSuccessDelete rest with
      | (.error e, tr') => (.error e, tr ++ tr')
      | (.ok (cs, ncs, ds), tr') =>
        match outcome with
        | .created email =>
            (.ok ((id, email) :: cs, ncs,
              (if onSuccessDelete then [id] else []) ++ ds), tr ++ tr')
        | .notCreatedEarly err =>
            (.ok (cs, (id, err) :: ncs, ds), tr ++ tr')
        | .notCreatedCopy err =>
            (.ok (cs, (id, err) :: ncs,
              (if onSuccessDelete then [id] else []) ++ ds), tr ++ tr')

/-- Rust `JMAP::email_copy`: cross-account guard, precondition read,
ACL/mailbox/quota context, the per-item loop, the state re-read with
its push notification, and the optional follow-up destroy call. -/
def email_copy (env : JmapEnv) (req : CopyRequest) :
    Except MethodError (CopyResponse × Option EnqueuedCall) × List StorageOp :=
  let account_id := req.account_id.docId
  let from_account_id := req.from_account_id.docId
  if account_id = from_account_id then
    (.error (.invalidArguments "From accountId is equal to fromAccountId"), [])
  else
    match env.assertState with
    | .error e => (.error e, [.assertState account_id .Email])
    | .ok old_state =>
      match env.fromMessageIds with
      | .error e =>
          (.error e, [.assertState account_id .Email,
            .ownedOrSharedMessages from_account_id])
      | .ok from_message_ids =>
        match env.mailboxIds with
        | .error e =>
            (.error e, [.assertState account_id .Email,
              .ownedOrSharedMessages from_account_id, .mailboxGetOrCreate account_id])
        | .ok mailbox_ids =>
          let tr0 : List StorageOp := [.assertState account_id .Email,
            .ownedOrSharedMessages from_account_id, .mailboxGetOrCreate account_id]
          match sharedMailboxStep env account_id with
          | (.error e, trS) => (.error e, tr0 ++ trS)
          | (.ok can_add_mailbox_ids, trS) =>
            match env.getQuota with
            | .error e => (.error e, tr0 ++ trS ++ [.getQuota account_id])
            | .ok account_quota =>
              let tr1 := tr0 ++ trS ++ [.getQuota account_id]
              let on_success_delete := req.on_success_destroy_original.getD false
              let ctx : CopyCtx :=
                { account_id := account_id, from_account_id := from_account_id,
                  fromMessageIds := from_message_ids, mailboxIds := mailbox_ids,
                  canAddMailboxIds := can_add_mailbox_ids, accountQuota := account_quota }
              match runItems env ctx on_success_delete req.create with
              | (.error e, trI) => (.error e, tr1 ++ trI)
              | (.ok (created, not_created, destroy_ids), trI) =>
                let response0 : CopyResponse :=
                  { from_account_id := req.from_account_id,
                    account_id := req.account_id,
                    old_state := old_state, new_state := old_state,
                    created := created, not_created := not_created,
                    state_change := none }
                let next_call : Option EnqueuedCall :=
                  if on_success_delete ∧ ¬ destroy_ids.isEmpty then
                    some { id := "", obj := .email, fn := .set,
                           set_request :=
                             { account_id := req.from_account_id,
                               if_in_state := req.destroy_from_if_in_state,
                               destroy := destroy_ids } }
                  else none
                if created.isEmpty then
                  (.ok (response0, next_call), tr1 ++ trI)
                else
                  match env.getState with
                  | .error e => (.error e, tr1 ++ trI ++ [.getState account_id .Email])
                  | .ok new_state =>
                    let response : CopyResponse :=
                      { response0 with
                        new_state := new_state,
                        state_change :=
                          match new_state with
                          | .exact change_id =>
                              some { accountId := account_id,
                                     types := [(.Email, change_id), (.Mailbox, change_id),
                                       (.Thread, change_id)] }
                          | .initial => none }
                    (.ok (response, next_call), tr1 ++ trI ++ [.getState account_id .Email])

end Copy

section ConcreteEnvs

/-! Concrete oracle instances used to evaluate the model on explicit
inputs. -/

/-- A baseline per-message oracle: the source message has no stored
metadata or term index; every other collaborator succeeds trivially. -/
def baseCopyEnv : CopyEnv :=
  { getProperty := .ok none
    getTermIndex := .ok none
    getUsedQuota := .ok 0
    assignDocumentId := fun _ => .ok 0
    copyBlobOk := true
    findOrMergeThread := fun _ _ => .ok none
    beginChanges := .ok 0
    writeOk := true
    normalizeSubject := fun s => s }

/-- A per-message oracle for a fully successful copy: metadata with a
10-byte size, a term index, fresh document ids 8 (message) and 3
(thread), change id 11, no thread match. -/
def successCopyEnv : CopyEnv :=
  { getProperty := .ok (some [(Property.Size, Value.uint 10)])
    getTermIndex := .ok (some ⟨42⟩)
    getUsedQuota := .ok 0
    assignDocumentId := fun c =>
      match c with
      | .Email => .ok 8
      | .Thread => .ok 3
      | .Mailbox => .ok 0
    copyBlobOk := true
    findOrMergeThread := fun _ _ => .ok none
    beginChanges := .ok 11
    writeOk := true
    normalizeSubject := fun s => s }

/-- A baseline whole-call oracle: source account exposes message 5,
target account has mailbox 1, no sharing, unlimited quota. -/
def baseJmapEnv : JmapEnv :=
  { assertState := .ok (.exact 3)
    fromMessageIds := .ok [5]
    mailboxIds := .ok [1]
    isShared := false
    sharedMailboxIds := .ok []
    getQuota := .ok 0
    evalRef := fun v => .ok v
    copyEnv := fun _ => baseCopyEnv
    getState := .ok (.exact 9) }

/-- The baseline whole-call oracle with a fully successful per-message
oracle. -/
def successJmapEnv : JmapEnv :=
  { baseJmapEnv with copyEnv := fun _ => successCopyEnv }

end ConcreteEnvs

section Theorems

/-- C2: an `email_copy` request whose target account equals the
source account fails immediately with `InvalidArguments`, and the
storage trace is empty: no state read, no quota read, no document-id
allocation, no blob copy, no batch commit. -/
theorem email_copy_same_account_rejected (env : JmapEnv) (req : CopyRequest)
    (h : req.account_id.docId = req.from_account_id.docId) :
    email_copy env req =
      (.error (.invalidArguments "From accountId is equal to fromAccountId"), []) := by
  simp [email_copy, h]

/-- Witness for `email_copy_same_account_rejected` at a concrete
request whose two account ids share document id 7. -/
theorem email_copy_same_account_rejected_witness :
    (⟨0, 7⟩ : Id).docId = (⟨1, 7⟩ : Id).docId ∧
    email_copy baseJmapEnv
        { from_account_id := ⟨1, 7⟩, account_id := ⟨0, 7⟩, if_in_state := none,
          create := [], on_success_destroy_original := none,
          destroy_from_if_in_state := none } =
      (.error (.invalidArguments "From accountId is equal to fromAccountId"), []) :=
  ⟨rfl, email_copy_same_account_rejected baseJmapEnv _ rfl⟩

/-- C3: for a non-super-user, `blob_upload` rejects with
`OverQuota(max_count, max_bytes)` exactly when a nonzero byte ceiling
is strictly exceeded by current bytes plus the new blob's length, or a
nonzero count ceiling is strictly exceeded by current files plus one
(a ceiling of 0 disables its dimension); a super-user is never
rejected with `OverQuota`. -/
theorem blob_upload_quota_gate (cfg : UploadConfig) (env : UploadEnv) (acc : Id)
    (ct : String) (data : List Nat) (files bytes : Nat)
    (h1 : env.inFlight = some ())
    (h2 : env.tmpBlobUsage = some (files, bytes)) :
    (blob_upload cfg env acc ct data false =
        .error (.overBlobQuota cfg.upload_tmp_quota_amount cfg.upload_tmp_quota_size)
      ↔ ((cfg.upload_tmp_quota_size > 0
            ∧ bytes + data.length > cfg.upload_tmp_quota_size)
          ∨ (cfg.upload_tmp_quota_amount > 0
            ∧ files + 1 > cfg.upload_tmp_quota_amount)))
    ∧ (∀ a s, blob_upload cfg env acc ct data true ≠ .error (.overBlobQuota a s)) := by
  constructor
  · simp only [blob_upload, h1, h2]
    by_cases hcond : ((cfg.upload_tmp_quota_size > 0
          ∧ bytes + data.length > cfg.upload_tmp_quota_size)
        ∨ (cfg.upload_tmp_quota_amount > 0
          ∧ files + 1 > cfg.upload_tmp_quota_amount))
    · rw [if_pos (by simp [hcond])]
      simp [hcond]
    · rw [if_neg (by simp [hcond])]
      cases hp : env.putBlobOk <;> simp [hp, hcond]
  · intro a s
    simp only [blob_upload, h1, h2]
    rw [if_neg (by simp)]
    cases hp : env.putBlobOk <;> simp [hp]

/-- Witness for `blob_upload_quota_gate` at the spec's example:
byte ceiling 100, 80 bytes pending — a 25-byte upload is rejected with
`OverQuota`, a 20-byte upload is not. -/
theorem blob_upload_quota_gate_witness :
    (blob_upload ⟨100, 0⟩ ⟨some (), some (3, 80), true⟩ ⟨0, 1⟩ "text/plain"
        (List.replicate 25 0) false = .error (.overBlobQuota 0 100))
    ∧ (blob_upload ⟨100, 0⟩ ⟨some (), some (3, 80), true⟩ ⟨0, 1⟩ "text/plain"
        (List.replicate 20 0) false ≠ .error (.overBlobQuota 0 100)) := by
  constructor
  · exact (blob_upload_quota_gate ⟨100, 0⟩ ⟨some (), some (3, 80), true⟩ ⟨0, 1⟩
      "text/plain" (List.replicate 25 0) 3 80 rfl rfl).1.mpr (by decide)
  · intro h
    exact absurd ((blob_upload_quota_gate ⟨100, 0⟩ ⟨some (), some (3, 80), true⟩ ⟨0, 1⟩
      "text/plain" (List.replicate 20 0) 3 80 rfl rfl).1.mp h) (by decide)

/-- C8: an inbound WebSocket message longer than the configured
maximum fails with the size-limit error regardless of its content (no
token is consumed); a message within the limit proceeds to the keyed
dispatch of its parsed document. -/
theorem ws_parse_size_gate (len mc ms : Nat) (doc : JsonDoc) :
    (ms < len →
      WebSocketMessage.parse ⟨len, doc⟩ mc ms = .error { error := .limitSizeRequest })
    ∧ (len ≤ ms →
      WebSocketMessage.parse ⟨len, doc⟩ mc ms = parseDoc doc) := by
  constructor
  · intro h
    simp [WebSocketMessage.parse, Nat.not_le.mpr h]
  · intro h
    simp [WebSocketMessage.parse, h]

/-- A non-`badEntry` dispatch step always succeeds. -/
theorem wsStep_ok_of_ne_bad (acc : WsAcc) (e : WsEntry) (h : e ≠ WsEntry.badEntry) :
    ∃ acc', wsStep acc e = .ok acc' := by
  cases e <;> simp_all [wsStep]

/-- The dispatch loop succeeds whenever no entry is a `badEntry`. -/
theorem wsFold_ok_of_no_bad (entries : List WsEntry) :
    ∀ acc : WsAcc, (∀ e ∈ entries, e ≠ WsEntry.badEntry) →
      ∃ acc', wsFold acc entries = .ok acc' := by
  induction entries with
  | nil => exact fun acc _ => ⟨acc, rfl⟩
  | cons e rest ih =>
    intro acc h
    obtain ⟨acc1, hs⟩ := wsStep_ok_of_ne_bad acc e (h e (by simp))
    obtain ⟨acc', hf⟩ := ih acc1 (fun x hx => h x (List.mem_cons_of_mem _ hx))
    exact ⟨acc', by simp [wsFold, hs, hf]⟩

/-- After a successful dispatch loop, the `found_push_keys` and
`found_request_keys` flags say exactly whether a push key, resp. a
recognised request key, occurred; the message type is the last `@type`
declaration. -/
theorem wsFold_flags (entries : List WsEntry) :
    ∀ acc acc' : WsAcc, wsFold acc entries = .ok acc' →
      acc'.foundPushKeys = (acc.foundPushKeys || entries.any WsEntry.isPushKey)
      ∧ acc'.foundRequestKeys
          = (acc.foundRequestKeys || entries.any WsEntry.isFoundRequestKey)
      ∧ acc'.messageType = entries.foldl
          (fun a e => match e with | .typeKey t => t | _ => a) acc.messageType := by
  induction entries with
  | nil =>
    intro acc acc' h
    simp only [wsFold, Except.ok.injEq] at h
    subst h
    simp
  | cons e rest ih =>
    intro acc acc' h
    cases e with
    | typeKey t =>
      simp only [wsFold, wsStep] at h
      obtain ⟨h1, h2, h3⟩ := ih _ _ h
      simp_all [WsEntry.isPushKey, WsEntry.isFoundRequestKey]
    | dataTypes l =>
      simp only [wsFold, wsStep] at h
      obtain ⟨h1, h2, h3⟩ := ih _ _ h
      simp_all [WsEntry.isPushKey, WsEntry.isFoundRequestKey]
    | pushStateKey s =>
      simp only [wsFold, wsStep] at h
      obtain ⟨h1, h2, h3⟩ := ih _ _ h
      simp_all [WsEntry.isPushKey, WsEntry.isFoundRequestKey]
    | idKey s =>
      simp only [wsFold, wsStep] at h
      obtain ⟨h1, h2, h3⟩ := ih _ _ h
      simp_all [WsEntry.isPushKey, WsEntry.isFoundRequestKey]
    | requestKey f =>
      simp only [wsFold, wsStep] at h
      obtain ⟨h1, h2, h3⟩ := ih _ _ h
      simp_all [WsEntry.isPushKey, WsEntry.isFoundRequestKey, Bool.or_assoc]
    | badEntry =>
      simp [wsFold, wsStep] at h

/-- C7: a WebSocket message declaring the push-enable type while
carrying neither `dataTypes` nor `pushState` is rejected as a malformed
request; more generally an accepted `Request` carries at least one
recognised request key, an accepted `PushEnable` carries at least one
push key, and an accepted `PushDisable` carries neither a recognised
request key nor a push key. -/
theorem ws_parse_declared_type_matches_keys (mc ms len : Nat)
    (entries : List WsEntry) (hlen : len ≤ ms) :
    ((∀ e ∈ entries, e ≠ WsEntry.badEntry) →
      (∀ e ∈ entries, e.isPushKey = false) →
      declaredType entries = .pushEnable →
      WebSocketMessage.parse ⟨len, .dict entries⟩ mc ms =
        .error { error := .notRequest "Invalid WebSocket JMAP request" })
    ∧ (∀ r, WebSocketMessage.parse ⟨len, .dict entries⟩ mc ms = .ok (.request r) →
        ∃ e ∈ entries, e.isFoundRequestKey = true)
    ∧ (∀ p, WebSocketMessage.parse ⟨len, .dict entries⟩ mc ms = .ok (.pushEnable p) →
        ∃ e ∈ entries, e.isPushKey = true)
    ∧ (WebSocketMessage.parse ⟨len, .dict entries⟩ mc ms = .ok .pushDisable →
        (∀ e ∈ entries, e.isFoundRequestKey = false)
        ∧ (∀ e ∈ entries, e.isPushKey = false)) := by
  have hsz : WebSocketMessage.parse ⟨len, .dict entries⟩ mc ms = parseDoc (.dict entries) :=
    (ws_parse_size_gate len mc ms (.dict entries)).2 hlen
  refine ⟨?_, ?_, ?_, ?_⟩
  · intro hnb hnp hdt
    obtain ⟨acc, hf⟩ := wsFold_ok_of_no_bad entries wsInit hnb
    obtain ⟨hpk, _, hmt⟩ := wsFold_flags entries wsInit acc hf
    have hpush : acc.foundPushKeys = false := by
      rw [hpk]
      simp only [wsInit, Bool.false_or]
      exact List.any_eq_false.mpr (by simpa using hnp)
    have hmt' : acc.messageType = .pushEnable := by
      rw [hmt]
      exact hdt
    rw [hsz]
    simp [parseDoc, hf, hmt', hpush]
  · intro r h
    rw [hsz] at h
    simp only [parseDoc] at h
    cases hf : wsFold wsInit entries with
    | error e => simp [hf] at h
    | ok acc =>
      obtain ⟨_, hrk, _⟩ := wsFold_flags entries wsInit acc hf
      simp only [hf] at h
      cases hmt2 : acc.messageType <;> simp only [hmt2] at h
      case request =>
        by_cases hfr : acc.foundRequestKeys = true
        · rw [hrk] at hfr
          simp only [wsInit, Bool.false_or] at hfr
          simpa using List.any_eq_true.mp hfr
        · simp [if_neg hfr] at h
      case pushEnable => split at h <;> simp at h
      case pushDisable => split at h <;> simp at h
      case noType => simp at h
  · intro p h
    rw [hsz] at h
    simp only [parseDoc] at h
    cases hf : wsFold wsInit entries with
    | error e => simp [hf] at h
    | ok acc =>
      obtain ⟨hpk, _, _⟩ := wsFold_flags entries wsInit acc hf
      simp only [hf] at h
      cases hmt2 : acc.messageType <;> simp only [hmt2] at h
      case request => split at h <;> simp at h
      case pushEnable =>
        by_cases hfp : acc.foundPushKeys = true
        · rw [hpk] at hfp
          simp only [wsInit, Bool.false_or] at hfp
          simpa using List.any_eq_true.mp hfp
        · simp [if_neg hfp] at h
      case pushDisable => split at h <;> simp at h
      case noType => simp at h
  · intro h
    rw [hsz] at h
    simp only [parseDoc] at h
    cases hf : wsFold wsInit entries with
    | error e => simp [hf] at h
    | ok acc =>
      obtain ⟨hpk, hrk, _⟩ := wsFold_flags entries wsInit acc hf
      simp only [hf] at h
      cases hmt2 : acc.messageType <;> simp only [hmt2] at h
      case request => split at h <;> simp at h
      case pushEnable => split at h <;> simp at h
      case pushDisable =>
        split at h
        next hcond =>
          obtain ⟨hr, hp2⟩ := hcond
          rw [hrk] at hr
          rw [hpk] at hp2
          simp only [wsInit, Bool.false_or] at hr hp2
          constructor
          · exact fun e he => by
              have := List.any_eq_false.mp (Bool.eq_false_iff.mpr hr) e he
              simpa using this
          · exact fun e he => by
              have := List.any_eq_false.mp (Bool.eq_false_iff.mpr hp2) e he
              simpa using this
        next => simp at h
      case noType => simp at h

/-- Witness for `ws_parse_declared_type_matches_keys`: a message
declaring push-enable with no push keys present is rejected as a
malformed request. -/
theorem ws_parse_declared_type_matches_keys_witness :
    WebSocketMessage.parse ⟨2, .dict [.typeKey .pushEnable, .idKey none]⟩ 1 4 =
      .error { error := .notRequest "Invalid WebSocket JMAP request" } :=
  (ws_parse_declared_type_matches_keys 1 4 2 [.typeKey .pushEnable, .idKey none]
    (by decide)).1 (by decide) (by decide) rfl

/-- Witness for `ws_parse_size_gate`: a 5-byte message over a 3-byte
limit is rejected with the size-limit error; a 2-byte message under it
reaches the dispatcher. -/
theorem ws_parse_size_gate_witness :
    (WebSocketMessage.parse ⟨5, .malformed⟩ 0 3 = .error { error := .limitSizeRequest })
    ∧ (WebSocketMessage.parse ⟨2, .malformed⟩ 0 3 = parseDoc .malformed) :=
  ⟨(ws_parse_size_gate 5 0 3 .malformed).1 (by decide),
   (ws_parse_size_gate 2 0 3 .malformed).2 (by decide)⟩

/-- A fully successful `copy_message` run, with every collaborator
outcome hypothesised, reduces to one explicit result and trace ending
in the single batch commit. -/
theorem copy_message_success_run
    (env : CopyEnv) (from_account_id from_message_id account_id : Nat)
    (account_quota : Int) (mailboxes : List Nat) (keywords : List String)
    (received_at : Option Nat) (metadata0 : Obj) (token_index : TokenIndex)
    (trq trt trth : List StorageOp)
    (message_id change_id thread_id : Nat) (thread_opt : Option Nat)
    (threadBatch : List BatchOp) (threadEntry : ChangeEntry)
    (hmd : env.getProperty = .ok (some metadata0))
    (hti : env.getTermIndex = .ok (some token_index))
    (hq : checkQuota env account_id account_quota ((metadata0.get .Size).as_uint.getD 0)
        = (.ok false, trq))
    (hres : resolveThread env account_id
        (scanMetadata env.normalizeSubject (applyReceivedAt metadata0 received_at) [] "").2
        (scanMetadata env.normalizeSubject (applyReceivedAt metadata0 received_at) [] "").1
        = (.ok thread_opt, trt))
    (hmid : env.assignDocumentId .Email = .ok message_id)
    (hblob : env.copyBlobOk = true)
    (hcid : env.beginChanges = .ok change_id)
    (hth : threadStage env account_id thread_opt
        = (.ok (thread_id, threadBatch, threadEntry), trth))
    (hw : env.writeOk = true) :
    copy_message env from_account_id from_message_id account_id account_quota
        mailboxes keywords received_at =
      (.ok (.ok { id := Id.fromParts thread_id message_id, change_id := change_id,
                  blob_id := .linkedMaildir account_id message_id,
                  size := ((applyReceivedAt metadata0 received_at).get .Size).as_uint.getD 0 }),
       [.getProperty from_account_id .Email from_message_id .BodyStructure,
        .getTermIndex from_account_id .Email from_message_id]
       ++ trq ++ trt
       ++ [.assignDocumentId account_id .Email,
           .copyBlob (.linkedMaildir from_account_id from_message_id)
             (.linkedMaildir account_id message_id),
           .beginChanges account_id]
       ++ trth
       ++ [.write ([.withAccountId account_id] ++ threadBatch ++
            [.withCollection .Email, .createDocument message_id,
             .value .ThreadId (.uint thread_id) (F_VALUE ||| F_BITMAP),
             .value .MailboxIds (.uintList mailboxes) (F_VALUE ||| F_BITMAP),
             .value .Keywords (.keywordList keywords) (F_VALUE ||| F_BITMAP),
             .value .Cid (.uint change_id) F_VALUE,
             .customFts (applyReceivedAt metadata0 received_at),
             .customTokenIndex token_index,
             .customChanges
               { change_id := change_id,
                 entries := [threadEntry,
                     .insert .Email (Id.fromParts thread_id message_id).toU64]
                   ++ mailboxes.map (fun m => ChangeEntry.childUpdate .Mailbox m) }])]) := by
  simp only [copy_message, hmd, hti, hq, hres, hmid, hblob, hcid, hth, hw,
    not_true, if_false, ite_true, ite_false, Bool.not_true]
  simp [List.append_assoc]

/-- C4: a successful `copy_message` commits one batch containing
the new message document's creation, its `ThreadId`/`MailboxIds`/
`Keywords` indexed values, a `Cid` value equal to the allocated change
id, the full-text payload, and exactly one change-log payload whose
entries are the thread insert (fresh thread) or child-update (matched
thread), the new message insert, and one child-update per target
mailbox — all under the single change id from `begin_changes`. -/
theorem copy_message_commits_one_batch
    (env : CopyEnv) (from_account_id from_message_id account_id : Nat)
    (account_quota : Int) (mailboxes : List Nat) (keywords : List String)
    (received_at : Option Nat) (metadata0 : Obj) (token_index : TokenIndex)
    (trq trt trth : List StorageOp)
    (message_id change_id thread_id : Nat) (thread_opt : Option Nat)
    (threadBatch : List BatchOp) (threadEntry : ChangeEntry)
    (hmd : env.getProperty = .ok (some metadata0))
    (hti : env.getTermIndex = .ok (some token_index))
    (hq : checkQuota env account_id account_quota ((metadata0.get .Size).as_uint.getD 0)
        = (.ok false, trq))
    (hres : resolveThread env account_id
        (scanMetadata env.normalizeSubject (applyReceivedAt metadata0 received_at) [] "").2
        (scanMetadata env.normalizeSubject (applyReceivedAt metadata0 received_at) [] "").1
        = (.ok thread_opt, trt))
    (hmid : env.assignDocumentId .Email = .ok message_id)
    (hblob : env.copyBlobOk = true)
    (hcid : env.beginChanges = .ok change_id)
    (hth : threadStage env account_id thread_opt
        = (.ok (thread_id, threadBatch, threadEntry), trth))
    (hw : env.writeOk = true) :
    copy_message env from_account_id from_message_id account_id account_quota
        mailboxes keywords received_at =
      (.ok (.ok { id := Id.fromParts thread_id message_id, change_id := change_id,
                  blob_id := .linkedMaildir account_id message_id,
                  size := ((applyReceivedAt metadata0 received_at).get .Size).as_uint.getD 0 }),
       [.getProperty from_account_id .Email from_message_id .BodyStructure,
        .getTermIndex from_account_id .Email from_message_id]
       ++ trq ++ trt
       ++ [.assignDocumentId account_id .Email,
           .copyBlob (.linkedMaildir from_account_id from_message_id)
             (.linkedMaildir account_id message_id),
           .beginChanges account_id]
       ++ trth
       ++ [.write ([.withAccountId account_id] ++ threadBatch ++
            [.withCollection .Email, .createDocument message_id,
             .value .ThreadId (.uint thread_id) (F_VALUE ||| F_BITMAP),
             .value .MailboxIds (.uintList mailboxes) (F_VALUE ||| F_BITMAP),
             .value .Keywords (.keywordList keywords) (F_VALUE ||| F_BITMAP),
             .value .Cid (.uint change_id) F_VALUE,
             .customFts (applyReceivedAt metadata0 received_at),
             .customTokenIndex token_index,
             .customChanges
               { change_id := change_id,
                 entries := [threadEntry,
                     .insert .Email (Id.fromParts thread_id message_id).toU64]
                   ++ mailboxes.map (fun m => ChangeEntry.childUpdate .Mailbox m) }])]) :=
  copy_message_success_run env from_account_id from_message_id account_id account_quota
    mailboxes keywords received_at metadata0 token_index trq trt trth
    message_id change_id thread_id thread_opt threadBatch threadEntry
    hmd hti hq hres hmid hblob hcid hth hw

/-- Witness for `copy_message_commits_one_batch` at a concrete
successful copy (message 5 of account 2 into mailbox 1 of account 1,
fresh thread 3, change id 11). -/
theorem copy_message_commits_one_batch_witness :
    successCopyEnv.getProperty = .ok (some [(Property.Size, Value.uint 10)]) ∧
    copy_message successCopyEnv 2 5 1 0 [1] [] none =
      (.ok (.ok { id := Id.fromParts 3 8, change_id := 11,
                  blob_id := .linkedMaildir 1 8,
                  size := ((applyReceivedAt [(Property.Size, Value.uint 10)] none).get
                    .Size).as_uint.getD 0 }),
       [.getProperty 2 .Email 5 .BodyStructure, .getTermIndex 2 .Email 5]
       ++ [] ++ []
       ++ [.assignDocumentId 1 .Email,
           .copyBlob (.linkedMaildir 2 5) (.linkedMaildir 1 8),
           .beginChanges 1]
       ++ [.assignDocumentId 1 .Thread]
       ++ [.write ([.withAccountId 1]
            ++ [.withCollection .Thread, .createDocument 3]
            ++ [.withCollection .Email, .createDocument 8,
                .value .ThreadId (.uint 3) (F_VALUE ||| F_BITMAP),
                .value .MailboxIds (.uintList [1]) (F_VALUE ||| F_BITMAP),
                .value .Keywords (.keywordList []) (F_VALUE ||| F_BITMAP),
                .value .Cid (.uint 11) F_VALUE,
                .customFts (applyReceivedAt [(Property.Size, Value.uint 10)] none),
                .customTokenIndex ⟨42⟩,
                .customChanges
                  { change_id := 11,
                    entries := [.insert .Thread 3, .insert .Email (Id.fromParts 3 8).toU64]
                      ++ [1].map (fun m => ChangeEntry.childUpdate .Mailbox m) }])]) :=
  ⟨rfl,
   copy_message_commits_one_batch successCopyEnv 2 5 1 0 [1] [] none
     [(Property.Size, Value.uint 10)] ⟨42⟩ [] [] [.assignDocumentId 1 .Thread]
     8 11 3 none [.withCollection .Thread, .createDocument 3] (.insert .Thread 3)
     rfl rfl rfl rfl rfl rfl rfl rfl rfl⟩

/-- Rust `Object::set` only introduces the written property: any binding of
the result is the written property or came from the original object. -/
theorem mem_obj_set (md : Obj) (p : Property) (v : Value) :
    ∀ pv ∈ Obj.set md p v, pv.1 = p ∨ pv ∈ md := by
  induction md with
  | nil =>
    intro pv hpv
    simp only [Obj.set, List.mem_singleton] at hpv
    exact Or.inl (by rw [hpv])
  | cons qw rest ih =>
    intro pv hpv
    obtain ⟨q, w⟩ := qw
    simp only [Obj.set] at hpv
    by_cases hqp : q = p
    · rw [if_pos hqp] at hpv
      rcases List.mem_cons.mp hpv with h | h
      · exact Or.inl (by rw [h])
      · exact Or.inr (List.mem_cons_of_mem _ h)
    · rw [if_neg hqp] at hpv
      rcases List.mem_cons.mp hpv with h | h
      · exact Or.inr (by rw [h]; exact List.mem_cons_self ..)
      · rcases ih pv h with h' | h'
        · exact Or.inl h'
        · exact Or.inr (List.mem_cons_of_mem _ h')

/-- Applying the `receivedAt` override preserves the absence of
reference-header properties. -/
theorem applyReceivedAt_no_refs (md : Obj) (r : Option Nat)
    (h : ∀ pv ∈ md, Property.isThreadRef pv.1 = false) :
    ∀ pv ∈ applyReceivedAt md r, Property.isThreadRef pv.1 = false := by
  cases r with
  | none => exact h
  | some d =>
    intro pv hpv
    rcases mem_obj_set md .ReceivedAt (.date d) pv hpv with h' | h'
    · rw [h']
      rfl
    · exact h pv h'

/-- The metadata scan collects no reference token from an object with
no reference-header property. -/
theorem scanMetadata_no_refs (normalize : String → String) (md : Obj)
    (h : ∀ pv ∈ md, Property.isThreadRef pv.1 = false) :
    ∀ references subject,
      (scanMetadata normalize md references subject).1 = references := by
  induction md with
  | nil => intro references subject; rfl
  | cons pv rest ih =>
    intro references subject
    obtain ⟨p, v⟩ := pv
    have hp : Property.isThreadRef p = false := h (p, v) (List.mem_cons_self ..)
    have hrest : ∀ pv ∈ rest, Property.isThreadRef pv.1 = false :=
      fun x hx => h x (List.mem_cons_of_mem _ hx)
    simp only [scanMetadata, hp, Bool.false_eq_true, if_false]
    by_cases hsub : p = .Subject
    · rw [if_pos hsub]
      cases v.as_string with
      | none => exact ih hrest references subject
      | some s => exact ih hrest references (normalize s)
    · rw [if_neg hsub]
      exact ih hrest references subject

/-- The quota guard's trace is empty or a single `get_used_quota`
read. -/
theorem checkQuota_trace (env : CopyEnv) (a : Nat) (q : Int) (s : Nat) :
    (checkQuota env a q s).2 = [] ∨ (checkQuota env a q s).2 = [.getUsedQuota a] := by
  unfold checkQuota
  by_cases hq : 0 < q
  · rw [if_pos hq]
    cases env.getUsedQuota <;> exact Or.inr rfl
  · rw [if_neg hq]
    exact Or.inl rfl

/-- C10: when the source metadata carries no `Message-ID`,
`In-Reply-To`, `References` or `EmailIds` property — whatever the
subject — a successful `copy_message` never consults
`find_or_merge_thread`; it allocates a fresh thread document id,
creates that document in the batch, and logs its insert. -/
theorem copy_message_no_references_fresh_thread
    (env : CopyEnv) (from_account_id from_message_id account_id : Nat)
    (account_quota : Int) (mailboxes : List Nat) (keywords : List String)
    (received_at : Option Nat) (metadata0 : Obj) (token_index : TokenIndex)
    (trq : List StorageOp) (message_id change_id new_thread_id : Nat)
    (hnoref : ∀ pv ∈ metadata0, Property.isThreadRef pv.1 = false)
    (hmd : env.getProperty = .ok (some metadata0))
    (hti : env.getTermIndex = .ok (some token_index))
    (hq : checkQuota env account_id account_quota ((metadata0.get .Size).as_uint.getD 0)
        = (.ok false, trq))
    (hmid : env.assignDocumentId .Email = .ok message_id)
    (hblob : env.copyBlobOk = true)
    (hcid : env.beginChanges = .ok change_id)
    (hthr : env.assignDocumentId .Thread = .ok new_thread_id)
    (hw : env.writeOk = true) :
    (∀ a s r, StorageOp.findOrMergeThread a s r ∉
        (copy_message env from_account_id from_message_id account_id account_quota
          mailboxes keywords received_at).2)
    ∧ copy_message env from_account_id from_message_id account_id account_quota
        mailboxes keywords received_at =
      (.ok (.ok { id := Id.fromParts new_thread_id message_id, change_id := change_id,
                  blob_id := .linkedMaildir account_id message_id,
                  size := ((applyReceivedAt metadata0 received_at).get .Size).as_uint.getD 0 }),
       [.getProperty from_account_id .Email from_message_id .BodyStructure,
        .getTermIndex from_account_id .Email from_message_id]
       ++ trq ++ []
       ++ [.assignDocumentId account_id .Email,
           .copyBlob (.linkedMaildir from_account_id from_message_id)
             (.linkedMaildir account_id message_id),
           .beginChanges account_id]
       ++ [.assignDocumentId account_id .Thread]
       ++ [.write ([.withAccountId account_id]
            ++ [.withCollection .Thread, .createDocument new_thread_id]
            ++ [.withCollection .Email, .createDocument message_id,
                .value .ThreadId (.uint new_thread_id) (F_VALUE ||| F_BITMAP),
                .value .MailboxIds (.uintList mailboxes) (F_VALUE ||| F_BITMAP),
                .value .Keywords (.keywordList keywords) (F_VALUE ||| F_BITMAP),
                .value .Cid (.uint change_id) F_VALUE,
                .customFts (applyReceivedAt metadata0 received_at),
                .customTokenIndex token_index,
                .customChanges
                  { change_id := change_id,
                    entries := [.insert .Thread new_thread_id,
                        .insert .Email (Id.fromParts new_thread_id message_id).toU64]
                      ++ mailboxes.map (fun m => ChangeEntry.childUpdate .Mailbox m) }])]) := by
  have hrefs : (scanMetadata env.normalizeSubject
      (applyReceivedAt metadata0 received_at) [] "").1 = [] :=
    scanMetadata_no_refs env.normalizeSubject _
      (applyReceivedAt_no_refs metadata0 received_at hnoref) [] ""
  have hres : resolveThread env account_id
      (scanMetadata env.normalizeSubject (applyReceivedAt metadata0 received_at) [] "").2
      (scanMetadata env.normalizeSubject (applyReceivedAt metadata0 received_at) [] "").1
      = (.ok none, []) := by
    rw [hrefs]
    rfl
  have hth : threadStage env account_id none =
      (.ok (new_thread_id,
        [.withCollection .Thread, .createDocument new_thread_id],
        .insert .Thread new_thread_id),
       [.assignDocumentId account_id .Thread]) := by
    simp [threadStage, hthr]
  have heq := copy_message_success_run env from_account_id from_message_id account_id
    account_quota mailboxes keywords received_at metadata0 token_index
    trq [] [.assignDocumentId account_id .Thread]
    message_id change_id new_thread_id none
    [.withCollection .Thread, .createDocument new_thread_id]
    (.insert .Thread new_thread_id)
    hmd hti hq hres hmid hblob hcid hth hw
  refine ⟨?_, heq⟩
  intro a s r hmem
  rw [heq] at hmem
  have htrq : trq = [] ∨ trq = [.getUsedQuota account_id] := by
    have := checkQuota_trace env account_id account_quota
      ((metadata0.get .Size).as_uint.getD 0)
    rw [hq] at this
    exact this
  rcases htrq with h0 | h0 <;> subst h0 <;> simp at hmem

/-- Witness for `copy_message_no_references_fresh_thread`: the concrete
successful copy of `copy_message_commits_one_batch_witness`, whose
metadata (only a `Size` property) has no reference headers. -/
theorem copy_message_no_references_fresh_thread_witness :
    (∀ pv ∈ ([(Property.Size, Value.uint 10)] : Obj), Property.isThreadRef pv.1 = false) ∧
    (∀ a s r, StorageOp.findOrMergeThread a s r ∉
        (copy_message successCopyEnv 2 5 1 0 [1] [] none).2) :=
  ⟨by decide,
   (copy_message_no_references_fresh_thread successCopyEnv 2 5 1 0 [1] [] none
     [(Property.Size, Value.uint 10)] ⟨42⟩ [] 8 11 3
     (by decide) rfl rfl rfl rfl rfl rfl rfl rfl).1⟩

/-- C9: a `create` item whose property processing succeeds with an
empty mailbox-id list is rejected with an `InvalidProperties` error
naming `mailboxIds`, with an empty storage trace for the item (no
mailbox validation outcome, no quota read, no storage access), and the
loop appends exactly that error to `not_created` while the remaining
items' results are untouched. -/
theorem processItem_rejects_empty_mailboxes
    (env : JmapEnv) (ctx : CopyCtx) (id : Id) (create : CreateItem)
    (ks : List String) (r : Option Nat)
    (hin : ctx.fromMessageIds.contains id.docId = true)
    (hp : processProperties env.evalRef create.properties [] [] none = .ok ([], ks, r)) :
    processItem env ctx id create =
      (.ok (.notCreatedEarly ((SetError.invalid_properties.with_property .MailboxIds
          ).with_description "Message has to belong to at least one mailbox.")), [])
    ∧ ∀ del rest cs ncs ds tr, runItems env ctx del rest = (.ok (cs, ncs, ds), tr) →
        runItems env ctx del ((id, create) :: rest) =
          (.ok (cs, (id, (SetError.invalid_properties.with_property .MailboxIds
              ).with_description "Message has to belong to at least one mailbox.") :: ncs,
            ds), tr) := by
  have hin' : id.docId ∈ ctx.fromMessageIds := by simpa using hin
  have h1 : processItem env ctx id create =
      (.ok (.notCreatedEarly ((SetError.invalid_properties.with_property .MailboxIds
          ).with_description "Message has to belong to at least one mailbox.")), []) := by
    simp [processItem, hin', hp]
  refine ⟨h1, ?_⟩
  intro del rest cs ncs ds tr hr
  simp [runItems, h1, hr]

/-- Witness for `processItem_rejects_empty_mailboxes`: an item with an
empty property list (hence an empty mailbox-id list) on a readable
source message. -/
theorem processItem_rejects_empty_mailboxes_witness :
    (([5] : List Nat).contains (Id.docId ⟨0, 5⟩) = true) ∧
    processItem baseJmapEnv ⟨1, 2, [5], [1], none, 0⟩ ⟨0, 5⟩ ⟨[]⟩ =
      (.ok (.notCreatedEarly ((SetError.invalid_properties.with_property .MailboxIds
          ).with_description "Message has to belong to at least one mailbox.")), []) :=
  ⟨rfl,
   (processItem_rejects_empty_mailboxes baseJmapEnv ⟨1, 2, [5], [1], none, 0⟩ ⟨0, 5⟩ ⟨[]⟩
     [] none rfl rfl).1⟩

/-- C6: the `create` loop is a per-item homomorphism — the
outcomes of a batch are the concatenation of the outcomes of its parts,
so one item's result never changes a sibling's — and a failing item
(whether it failed before reaching `copy_message` or inside it)
contributes exactly its own `not_created` slot while processing
continues with the remaining items. -/
theorem runItems_per_item_isolation (env : JmapEnv) (ctx : CopyCtx) (del : Bool) :
    (∀ xs ys cs1 ncs1 ds1 tr1 cs2 ncs2 ds2 tr2,
      runItems env ctx del xs = (.ok (cs1, ncs1, ds1), tr1) →
      runItems env ctx del ys = (.ok (cs2, ncs2, ds2), tr2) →
      runItems env ctx del (xs ++ ys) =
        (.ok (cs1 ++ cs2, ncs1 ++ ncs2, ds1 ++ ds2), tr1 ++ tr2))
    ∧ (∀ id create err trE rest cs ncs ds tr,
      processItem env ctx id create = (.ok (.notCreatedEarly err), trE) →
      runItems env ctx del rest = (.ok (cs, ncs, ds), tr) →
      runItems env ctx del ((id, create) :: rest) =
        (.ok (cs, (id, err) :: ncs, ds), trE ++ tr))
    ∧ (∀ id create err trE rest cs ncs ds tr,
      processItem env ctx id create = (.ok (.notCreatedCopy err), trE) →
      runItems env ctx del rest = (.ok (cs, ncs, ds), tr) →
      runItems env ctx del ((id, create) :: rest) =
        (.ok (cs, (id, err) :: ncs, (if del then [id] else []) ++ ds), trE ++ tr)) := by
  refine ⟨?_, ?_, ?_⟩
  · intro xs
    induction xs with
    | nil =>
      intro ys cs1 ncs1 ds1 tr1 cs2 ncs2 ds2 tr2 h1 h2
      simp only [runItems, Prod.mk.injEq, Except.ok.injEq] at h1
      obtain ⟨⟨hc, hn, hd⟩, ht⟩ := h1
      subst hc
      subst hn
      subst hd
      subst ht
      simpa using h2
    | cons item rest ih =>
      intro ys cs1 ncs1 ds1 tr1 cs2 ncs2 ds2 tr2 h1 h2
      obtain ⟨id, create⟩ := item
      rw [List.cons_append]
      simp only [runItems] at h1 ⊢
      cases hpi : processItem env ctx id create with
      | mk res trE =>
        cases res with
        | error e =>
          rw [hpi] at h1
          simp at h1
        | ok outcome =>
          cases hrr : runItems env ctx del rest with
          | mk res2 trR =>
            cases res2 with
            | error e =>
              simp only [hpi, hrr] at h1
              simp at h1
            | ok triple =>
              obtain ⟨csr, ncsr, dsr⟩ := triple
              have hih := ih ys csr ncsr dsr trR cs2 ncs2 ds2 tr2 hrr h2
              cases outcome with
              | created email =>
                simp only [hpi, hrr, Prod.mk.injEq, Except.ok.injEq] at h1
                obtain ⟨⟨hc, hn, hd⟩, ht⟩ := h1
                subst hc
                subst hn
                subst hd
                subst ht
                simp only [hpi, hih]
                simp [List.append_assoc]
              | notCreatedEarly err =>
                simp only [hpi, hrr, Prod.mk.injEq, Except.ok.injEq] at h1
                obtain ⟨⟨hc, hn, hd⟩, ht⟩ := h1
                subst hc
                subst hn
                subst hd
                subst ht
                simp only [hpi, hih]
                simp [List.append_assoc]
              | notCreatedCopy err =>
                simp only [hpi, hrr, Prod.mk.injEq, Except.ok.injEq] at h1
                obtain ⟨⟨hc, hn, hd⟩, ht⟩ := h1
                subst hc
                subst hn
                subst hd
                subst ht
                simp only [hpi, hih]
                simp [List.append_assoc]
  · intro id create err trE rest cs ncs ds tr hpi hrr
    simp [runItems, hpi, hrr]
  · intro id create err trE rest cs ncs ds tr hpi hrr
    simp [runItems, hpi, hrr]

/-- Witness for `runItems_per_item_isolation`: splitting a two-item
batch — a readable item with no mailboxes (fails early) before an item
whose source message is missing (fails in `copy_message`) — yields the
concatenated outcome lists. -/
theorem runItems_per_item_isolation_witness :
    runItems baseJmapEnv ⟨1, 2, [5], [1], none, 0⟩ true [(⟨0, 5⟩, ⟨[]⟩)] =
      (.ok ([], [(⟨0, 5⟩, (SetError.invalid_properties.with_property .MailboxIds
          ).with_description "Message has to belong to at least one mailbox.")], []), [])
    ∧ runItems baseJmapEnv ⟨1, 2, [5], [1], none, 0⟩ true
        ([(⟨0, 5⟩, ⟨[]⟩)] ++ [(⟨0, 5⟩,
          ⟨[(.MailboxIds, .value (.list [.idV ⟨0, 1⟩]))]⟩)]) =
      (.ok ([] ++ [],
        [(⟨0, 5⟩, (SetError.invalid_properties.with_property .MailboxIds
            ).with_description "Message has to belong to at least one mailbox.")]
          ++ [(⟨0, 5⟩, SetError.not_found.with_description
            "Message not found not found in account.")],
        [] ++ [⟨0, 5⟩]),
       [] ++ [.getProperty 2 .Email 5 .BodyStructure, .getTermIndex 2 .Email 5]) :=
  ⟨rfl,
   (runItems_per_item_isolation baseJmapEnv ⟨1, 2, [5], [1], none, 0⟩ true).1
     [(⟨0, 5⟩, ⟨[]⟩)] [(⟨0, 5⟩, ⟨[(.MailboxIds, .value (.list [.idV ⟨0, 1⟩]))]⟩)]
     [] [(⟨0, 5⟩, (SetError.invalid_properties.with_property .MailboxIds
          ).with_description "Message has to belong to at least one mailbox.")] [] []
     [] [(⟨0, 5⟩, SetError.not_found.with_description
          "Message not found not found in account.")] [⟨0, 5⟩]
     [.getProperty 2 .Email 5 .BodyStructure, .getTermIndex 2 .Email 5]
     rfl rfl⟩

/-- C5: when an `email_copy` call completes, if at least one item
was created the response's `new_state` is the value re-read from
`get_state` — the trace ends with that read — and, when that state is
exact, a `StateChange` for the target account carrying the Email,
Mailbox and Thread types all at the new change id is attached (none
when the state is initial); if no item was created, `new_state` stays
equal to `old_state` and no `StateChange` is emitted. -/
theorem email_copy_state_and_push
    (env : JmapEnv) (req : CopyRequest)
    (old_state new_state : State) (from_ids mb_ids : List Nat)
    (can_add : Option (List Nat)) (quota : Int) (trS trI : List StorageOp)
    (cs : List (Id × IngestedEmail)) (ncs : List (Id × SetError)) (ds : List Id)
    (hne : req.account_id.docId ≠ req.from_account_id.docId)
    (has : env.assertState = .ok old_state)
    (hfm : env.fromMessageIds = .ok from_ids)
    (hmb : env.mailboxIds = .ok mb_ids)
    (hsh : sharedMailboxStep env req.account_id.docId = (.ok can_add, trS))
    (hq : env.getQuota = .ok quota)
    (hrun : runItems env
        { account_id := req.account_id.docId,
          from_account_id := req.from_account_id.docId,
          fromMessageIds := from_ids, mailboxIds := mb_ids,
          canAddMailboxIds := can_add, accountQuota := quota }
        (req.on_success_destroy_original.getD false) req.create
        = (.ok (cs, ncs, ds), trI))
    (hgs : env.getState = .ok new_state) :
    ∃ resp call tr, email_copy env req = (.ok (resp, call), tr)
      ∧ resp.created = cs
      ∧ resp.old_state = old_state
      ∧ (cs = [] → resp.new_state = old_state ∧ resp.state_change = none)
      ∧ (cs ≠ [] → resp.new_state = new_state
          ∧ (∀ cid, new_state = .exact cid →
              resp.state_change = some { accountId := req.account_id.docId,
                                         types := [(.Email, cid), (.Mailbox, cid),
                                           (.Thread, cid)] })
          ∧ (new_state = .initial → resp.state_change = none)
          ∧ tr.getLast? = some (.getState req.account_id.docId .Email)) := by
  simp only [email_copy, if_neg hne, has, hfm, hmb, hsh, hq, hrun, hgs]
  by_cases hcs : cs = []
  · subst hcs
    simp only [List.isEmpty_nil, if_true]
    exact ⟨_, _, _, rfl, rfl, rfl, fun _ => ⟨rfl, rfl⟩, fun h => absurd rfl h⟩
  · rw [if_neg (by simpa using hcs)]
    refine ⟨_, _, _, rfl, rfl, rfl, fun h => absurd h hcs,
      fun _ => ⟨rfl, ?_, ?_, ?_⟩⟩
    · intro cid hcid
      subst hcid
      rfl
    · intro hcid
      subst hcid
      rfl
    · exact List.getLast?_concat _

/-- Witness for `email_copy_state_and_push`: a concrete one-item
successful copy whose target-account state is re-read as change id 9
and pushed for the Email, Mailbox and Thread types. -/
theorem email_copy_state_and_push_witness :
    ∃ resp call tr,
      email_copy successJmapEnv
          { from_account_id := ⟨0, 2⟩, account_id := ⟨0, 1⟩, if_in_state := none,
            create := [(⟨0, 5⟩, ⟨[(.MailboxIds, .value (.list [.idV ⟨0, 1⟩]))]⟩)],
            on_success_destroy_original := none,
            destroy_from_if_in_state := none } = (.ok (resp, call), tr)
      ∧ resp.created = [(⟨0, 5⟩, (⟨Id.fromParts 3 8, 11, .linkedMaildir 1 8, 10⟩ : IngestedEmail))]
      ∧ resp.old_state = .exact 3
      ∧ (([(⟨0, 5⟩, (⟨Id.fromParts 3 8, 11, .linkedMaildir 1 8, 10⟩ : IngestedEmail))] :
              List (Id × IngestedEmail)) = []
          → resp.new_state = .exact 3 ∧ resp.state_change = none)
      ∧ (([(⟨0, 5⟩, (⟨Id.fromParts 3 8, 11, .linkedMaildir 1 8, 10⟩ : IngestedEmail))] :
              List (Id × IngestedEmail)) ≠ []
          → resp.new_state = .exact 9
          ∧ (∀ cid, (State.exact 9) = .exact cid →
              resp.state_change = some { accountId := 1,
                                         types := [(.Email, cid), (.Mailbox, cid),
                                           (.Thread, cid)] })
          ∧ ((State.exact 9) = .initial → resp.state_change = none)
          ∧ tr.getLast? = some (.getState 1 .Email)) :=
  email_copy_state_and_push successJmapEnv
    { from_account_id := ⟨0, 2⟩, account_id := ⟨0, 1⟩, if_in_state := none,
      create := [(⟨0, 5⟩, ⟨[(.MailboxIds, .value (.list [.idV ⟨0, 1⟩]))]⟩)],
      on_success_destroy_original := none, destroy_from_if_in_state := none }
    (.exact 3) (.exact 9) [5] [1] none 0 _ _
    [(⟨0, 5⟩, (⟨Id.fromParts 3 8, 11, .linkedMaildir 1 8, 10⟩ : IngestedEmail))] [] []
    (by decide) rfl rfl rfl rfl rfl rfl rfl

/-- C1 (code bug): with `onSuccessDestroyOriginal` set, a request
whose only item reaches `copy_message` but fails there (source
metadata absent, so it lands in `not_created` and `created` stays
empty) still enqueues a follow-up `Email/Set` call against the source
account whose destroy list contains the failed item's id — the source
pushes to the destroy list after the per-item `copy_message` match,
regardless of that item's outcome, contradicting the specified
"exactly the successfully-copied source ids" scoping and the "at least
one copy succeeded" guard. -/
theorem email_copy_enqueues_destroy_for_failed_item :
    email_copy baseJmapEnv
        { from_account_id := ⟨0, 2⟩, account_id := ⟨0, 1⟩, if_in_state := none,
          create := [(⟨0, 5⟩, ⟨[(.MailboxIds, .value (.list [.idV ⟨0, 1⟩]))]⟩)],
          on_success_destroy_original := some true,
          destroy_from_if_in_state := some (.exact 7) } =
      (.ok ({ from_account_id := ⟨0, 2⟩, account_id := ⟨0, 1⟩,
              old_state := .exact 3, new_state := .exact 3,
              created := [],
              not_created := [(⟨0, 5⟩, SetError.not_found.with_description
                "Message not found not found in account.")],
              state_change := none },
            some { id := "", obj := .email, fn := .set,
                   set_request := { account_id := ⟨0, 2⟩,
                                    if_in_state := some (.exact 7),
                                    destroy := [⟨0, 5⟩] } }),
       [.assertState 1 .Email, .ownedOrSharedMessages 2, .mailboxGetOrCreate 1,
        .getQuota 1, .getProperty 2 .Email 5 .BodyStructure,
        .getTermIndex 2 .Email 5]) :=
  rfl

end Theorems

end MailServer
